import Mathlib

/-!
Verification development for the QLD Land Types export service
(`app/main.py`).  The Python source is shallowly embedded: pure helper
functions become Lean functions over `List Char` / `String`, exception
control-flow becomes `Option` / `Except`, and external collaborators
(shapely geometry, HTTP fetches, the filesystem) are modelled as explicit
parameters or event traces.  Helper modules that are not part of the
provided sources (`app/bores.py`, `app/config.py`) are modelled from the
specification, and each such definition is marked in its doc comment.
-/

namespace LandType

/-! ## Python string primitives -/

/-- Whitespace characters recognised by Python's `str.strip()` (ASCII subset). -/
def pyIsSpace (c : Char) : Bool :=
  c = ' ' ∨ c = '\t' ∨ c = '\n' ∨ c = '\r' ∨ c = '\x0b' ∨ c = '\x0c'

/-- Python `str.strip()` on a character list: drop whitespace at both ends. -/
def pyStrip (cs : List Char) : List Char :=
  (cs.dropWhile pyIsSpace).reverse.dropWhile pyIsSpace |>.reverse

/-- Python `text.replace(",", "")`: remove every comma. -/
def removeCommas (cs : List Char) : List Char :=
  cs.filter (fun c => ¬ c = ',')

/-- ASCII lower-casing, as applied by Python `.lower()` to the ASCII strings used here. -/
def pyLowerChar (c : Char) : Char :=
  if 'A' ≤ c ∧ c ≤ 'Z' then Char.ofNat (c.toNat + 32) else c

/-- Lower-case a character list. -/
def pyLower (cs : List Char) : List Char := cs.map pyLowerChar

/-- ASCII upper-casing, as applied by Python `.upper()`. -/
def pyUpperChar (c : Char) : Char :=
  if 'a' ≤ c ∧ c ≤ 'z' then Char.ofNat (c.toNat - 32) else c

/-- Upper-case a character list. -/
def pyUpper (cs : List Char) : List Char := cs.map pyUpperChar

/-- Python `str.lstrip(".")`: drop every leading dot. -/
def lstripDots (cs : List Char) : List Char :=
  cs.dropWhile (fun c => c = '.')

/-- Index of the last occurrence of `c`, as Python `str.rfind`: `-1` when absent. -/
def pyRfind (c : Char) (cs : List Char) : Int :=
  (List.range cs.length).foldl
    (fun acc i => if cs.get? i = some c then (i : Int) else acc) (-1)

/-! ## `os.path.splitext` and icon content types (`app/main.py` lines 294-322) -/

/-- Extension part of `posixpath.splitext`: everything from the last dot of the
basename on, provided a non-dot character precedes that dot inside the basename
(so leading dots of a filename do not start an extension). -/
def splitextExtension (cs : List Char) : List Char :=
  let sepIndex : Int := pyRfind '/' cs
  let dotIndex : Int := pyRfind '.' cs
  if sepIndex < dotIndex then
    let start := (sepIndex + 1).toNat
    let stem := (cs.drop start).take (dotIndex.toNat - start)
    if stem.any (fun c => ¬ c = '.') then cs.drop dotIndex.toNat else []
  else []

/-- The `_ICON_EXTENSIONS` mapping of `app/main.py` (content type to extension),
in source insertion order. -/
def ICON_EXTENSIONS : List (List Char × List Char) :=
  [("image/png".toList, "png".toList),
   ("image/jpeg".toList, "jpg".toList),
   ("image/jpg".toList, "jpg".toList)]

/-- Association-list lookup used to model Python dict access. -/
def alistFind (k : List Char) : List (List Char × List Char) → Option (List Char)
  | [] => none
  | (k', v) :: rest => if k = k' then some v else alistFind k rest

/-- The `_EXT_CONTENT_TYPES` dict of `app/main.py`: built from `_ICON_EXTENSIONS`
by `setdefault(ext.lower(), mime)` over insertion order, skipping empty extensions. -/
def EXT_CONTENT_TYPES : List (List Char × List Char) :=
  ICON_EXTENSIONS.foldl
    (fun acc p =>
      if p.2.isEmpty then acc
      else match alistFind (pyLower p.2) acc with
        | some _ => acc
        | none => acc ++ [(pyLower p.2, p.1)])
    []

/-- The cleaned lower-cased extension computed by
`_icon_content_type_from_href`: `splitext` extension, lower-cased, leading
dots stripped. -/
def iconExtKey (href : List Char) : List Char :=
  lstripDots (pyLower (splitextExtension href))

/-- Embedding of `_icon_content_type_from_href` (`app/main.py` lines 317-322). -/
def icon_content_type_from_href (href : List Char) : List Char :=
  let ext_clean := iconExtKey href
  if ¬ ext_clean.isEmpty then
    match alistFind ext_clean EXT_CONTENT_TYPES with
    | some mime => mime
    | none => "image/png".toList
  else "image/png".toList

/-! ## `_safe_float` (`app/main.py` lines 175-191)

Python values reaching `_safe_float` are modelled by `PyVal`; exceptions by
`Except PyExc`.  The builtin `float(str)` is modelled by `pyFloatParse`, a
parser for CPython's accepted float strings: optional sign, `inf`/`infinity`/
`nan` (case-insensitive), or a decimal literal with optional fraction,
optional exponent, and underscores allowed strictly between digits. -/

/-- Result values of the Python `float` builtin. -/
inductive PyFloatVal where
  | finite (q : ℚ)
  | inf
  | neginf
  | nan
deriving DecidableEq

/-- Python exceptions distinguished by `_safe_float`'s handlers: `ValueError`
is caught around `float(text)`, `OverflowError` escapes the un-guarded
`float(value)` of the numeric `isinstance` branch, and `other` stands for any
exception swallowed by the bare `except` around `str(value)`. -/
inductive PyExc where
  | valueError
  | overflowError
  | other
deriving DecidableEq

/-- Decimal digit test. -/
def isDigit (c : Char) : Bool := '0' ≤ c ∧ c ≤ '9'

/-- Numeric value of a decimal digit. -/
def digitVal (c : Char) : ℕ := c.toNat - '0'.toNat

/-- CPython's rule for underscores in numeric literals: every underscore must be
immediately surrounded by digits. -/
def underscoresOk : List Char → Bool
  | [] => true
  | '_' :: _ => false
  | a :: '_' :: b :: rest => isDigit a ∧ isDigit b ∧ underscoresOk (b :: rest)
  | _ :: '_' :: [] => false
  | _ :: rest => underscoresOk rest

/-- Consume a maximal run of decimal digits, returning value, digit count, rest. -/
def parseUIntAux (acc n : ℕ) : List Char → ℕ × ℕ × List Char
  | [] => (acc, n, [])
  | c :: rest =>
    if isDigit c then parseUIntAux (10 * acc + digitVal c) (n + 1) rest
    else (acc, n, c :: rest)

/-- Mantissa of a float literal: digits, optional dot and fraction digits; at
least one digit overall.  Returns the combined digit value, the number of
fraction digits, and the rest of the input. -/
def parseMantissa (cs : List Char) : Option (ℕ × ℕ × List Char) :=
  let r1 := parseUIntAux 0 0 cs
  match r1.2.2 with
  | '.' :: rest =>
    let r2 := parseUIntAux 0 0 rest
    if r1.2.1 + r2.2.1 = 0 then none
    else some (r1.1 * 10 ^ r2.2.1 + r2.1, r2.2.1, r2.2.2)
  | _ => if r1.2.1 = 0 then none else some (r1.1, 0, r1.2.2)

/-- The rational `± num * 10 ^ e / 10 ^ scale`, computed with `mkRat` so that
it evaluates by kernel reduction. -/
def ratOfParts (neg : Bool) (num scale : ℕ) (e : Int) : ℚ :=
  let nAbs : ℕ := if 0 ≤ e then num * 10 ^ e.toNat else num
  let den : ℕ := if 0 ≤ e then 10 ^ scale else 10 ^ (scale + (-e).toNat)
  mkRat (if neg then -(nAbs : Int) else (nAbs : Int)) den

/-- Optional exponent part `e[±]digits`; `none` when a started exponent is malformed. -/
def parseExponent (cs : List Char) : Option (Int × List Char) :=
  match cs with
  | 'e' :: rest =>
    let p := match rest with
      | '+' :: r => ((1 : Int), r)
      | '-' :: r => ((-1 : Int), r)
      | _ => ((1 : Int), rest)
    let r3 := parseUIntAux 0 0 p.2
    if r3.2.1 = 0 then none else some (p.1 * (r3.1 : Int), r3.2.2)
  | 'E' :: rest =>
    let p := match rest with
      | '+' :: r => ((1 : Int), r)
      | '-' :: r => ((-1 : Int), r)
      | _ => ((1 : Int), rest)
    let r3 := parseUIntAux 0 0 p.2
    if r3.2.1 = 0 then none else some (p.1 * (r3.1 : Int), r3.2.2)
  | _ => some (0, cs)

/-- Model of the CPython builtin `float(str)`: `none` means `ValueError`. -/
def pyFloatParse (s : List Char) : Option PyFloatVal :=
  let t := pyStrip s
  if ¬ underscoresOk t then none
  else
    let t2 := t.filter (fun c => ¬ c = '_')
    let sb : Bool × List Char := match t2 with
      | '+' :: r => (false, r)
      | '-' :: r => (true, r)
      | _ => (false, t2)
    let body := sb.2
    if pyLower body = "inf".toList ∨ pyLower body = "infinity".toList then
      some (if sb.1 then .neginf else .inf)
    else if pyLower body = "nan".toList then some .nan
    else
      match parseMantissa body with
      | none => none
      | some (num, scale, r1) =>
        match parseExponent r1 with
        | none => none
        | some (e, r2) =>
          if ¬ r2.isEmpty then none
          else some (.finite (ratOfParts sb.1 num scale e))

/-- Decidable equality for `Except`, needed to evaluate embedded results. -/
instance {ε α : Type} [DecidableEq ε] [DecidableEq α] : DecidableEq (Except ε α) := fun x y =>
  match x, y with
  | .error a, .error b =>
    if h : a = b then .isTrue (congrArg _ h) else .isFalse (fun hh => h (Except.error.inj hh))
  | .error _, .ok _ => .isFalse (fun hh => Except.noConfusion hh)
  | .ok _, .error _ => .isFalse (fun hh => Except.noConfusion hh)
  | .ok a, .ok b =>
    if h : a = b then .isTrue (congrArg _ h) else .isFalse (fun hh => h (Except.ok.inj hh))

/-- The call `float(text)` raising `ValueError` on rejected strings. -/
def pyFloatCall (cs : List Char) : Except PyExc PyFloatVal :=
  match pyFloatParse cs with
  | some v => .ok v
  | none => .error .valueError

/-- Python values that can reach `_safe_float`.  `pyobj` models an arbitrary
object whose `str()` either yields a string or raises. -/
inductive PyVal where
  | pynone
  | pyint (n : ℤ)
  | pyfloat (v : PyFloatVal)
  | pystr (s : List Char)
  | pyobj (strOk : Bool) (s : List Char)

/-- The `str(value)` call inside `_safe_float`'s first `try`.  It is only
reached for non-`None`, non-numeric values; the numeric cases are given their
repr but are dead code in `safe_float`. -/
def pyStrOf : PyVal → Except PyExc (List Char)
  | .pynone => .ok "None".toList
  | .pyint _ => .ok []
  | .pyfloat _ => .ok []
  | .pystr s => .ok s
  | .pyobj ok s => if ok then .ok s else .error .other

/-- The string tail of `_safe_float`: `str(value)` under a bare `except`,
strip, empty check, comma removal, and `float(text)` under `except ValueError`. -/
def safe_float_str (v : PyVal) : Except PyExc (Option PyFloatVal) :=
  match pyStrOf v with
  | .error _ => .ok none
  | .ok text =>
    let t := pyStrip text
    if t.isEmpty then .ok none
    else
      match pyFloatCall (removeCommas t) with
      | .ok q => .ok (some q)
      | .error .valueError => .ok none
      | .error e => .error e

/-- Smallest magnitude at which CPython's int-to-double conversion overflows:
round-to-nearest-even sends `|n| ≥ 2^1024 - 2^970` to infinity, so
`float(n)` raises `OverflowError` exactly from this bound on. -/
def PY_FLOAT_OVERFLOW_MIN : ℕ := 2 ^ 1024 - 2 ^ 970

/-- Embedding of `_safe_float` (`app/main.py` lines 175-191): `None` and the
numeric `isinstance` branch first, then the string tail for everything else.
The `isinstance` branch's `float(value)` (line 179) sits outside any `try`,
so an int beyond double range raises an uncaught `OverflowError`; finite
conversions are idealized as exact rationals like the rest of the model. -/
def safe_float : PyVal → Except PyExc (Option PyFloatVal)
  | .pynone => .ok none
  | .pyint n =>
    if PY_FLOAT_OVERFLOW_MIN ≤ n.natAbs then .error .overflowError
    else .ok (some (.finite (n : ℚ)))
  | .pyfloat v => .ok (some v)
  | .pystr s => safe_float_str (.pystr s)
  | .pyobj ok s => safe_float_str (.pyobj ok s)

/-! ## String-level wrappers for the bore/easement normalizers -/

/-- Python `str.strip()` at `String` level. -/
def stripS (s : String) : String := ⟨pyStrip s.data⟩

/-- Python `.upper()` at `String` level. -/
def upperS (s : String) : String := ⟨pyUpper s.data⟩

/-- Remove every whitespace character. -/
def removeWsS (s : String) : String := ⟨s.data.filter (fun c => ¬ pyIsSpace c)⟩

/-- Embedding of `_clean_text` (`app/main.py` lines 105-108): `None` becomes
`""`, anything else is stringified and stripped.  Raw attribute values are
modelled as `Option String`. -/
def clean_text (v : Option String) : String :=
  match v with
  | none => ""
  | some s => stripS s

/-- Python's `a or b or ...` over raw attribute values: the first truthy
(non-`None`, non-empty) value, collapsed to `none` when every operand is falsy
(the callers treat `None` and `""` alike). -/
def pyOr (xs : List (Option String)) : Option String :=
  xs.findSome? (fun o =>
    match o with
    | some s => if s.data.isEmpty then none else some s
    | none => none)

/-- The `_or_none` helper of `_normalize_bore_properties`: empty string to `None`. -/
def or_none (s : String) : Option String := if s.data.isEmpty then none else some s

/-- Python `a or b` on two optional strings (left if truthy, else right). -/
def optOr (a b : Option String) : Option String :=
  match a with
  | some x => some x
  | none => b

/-! ## Bore normalization (`app/main.py` lines 111-172)

The helper module `app/bores.py` and the field-name constants of
`app/config.py` are not part of the provided sources; they are modelled from
the specification below and marked as such. -/

/-- Modelled from the spec: `BORE_NUMBER_FIELD` of `app/config.py` (source
alias for the bore-number attribute; exact value not in src). -/
def BORE_NUMBER_FIELD : String := "bore_no"

/-- Modelled from the spec: `BORE_STATUS_CODE_FIELD` of `app/config.py`. -/
def BORE_STATUS_CODE_FIELD : String := "facility_status_code"

/-- Modelled from the spec: `BORE_STATUS_LABEL_FIELD` of `app/config.py`. -/
def BORE_STATUS_LABEL_FIELD : String := "facility_status_label"

/-- Modelled from the spec: `BORE_TYPE_CODE_FIELD` of `app/config.py`. -/
def BORE_TYPE_CODE_FIELD : String := "facility_type_code"

/-- Modelled from the spec: `BORE_TYPE_LABEL_FIELD` of `app/config.py`. -/
def BORE_TYPE_LABEL_FIELD : String := "facility_type_label"

/-- Modelled from the spec: `BORE_DRILL_DATE_FIELD` of `app/config.py`. -/
def BORE_DRILL_DATE_FIELD : String := "drilled_dt"

/-- Modelled from the spec: `BORE_REPORT_URL_FIELD` of `app/config.py`. -/
def BORE_REPORT_URL_FIELD : String := "report_link"

/-- Modelled from the spec: `normalize_bore_number` of `app/bores.py` (not in
src).  Per the spec and the repository's tests, `"RN123"` and `" rn 123 "`
normalize to the same key: whitespace is removed, letters upper-cased, and a
blank input yields absence, never an empty string. -/
def normalize_bore_number (v : Option String) : Option String :=
  match v with
  | none => none
  | some s =>
    let t := upperS (removeWsS s)
    if t.data.isEmpty then none else some t

/-- Modelled from the spec: `normalize_bore_drill_date` of `app/bores.py`
(not in src).  Dates accept epoch values or pre-formatted strings and yield a
plain date string or absence; with attribute values modelled as strings, a
non-blank input is kept and a blank one is absence. -/
def normalize_bore_drill_date (v : Option String) : Option String :=
  match v with
  | none => none
  | some s =>
    let t := stripS s
    if t.data.isEmpty then none else some t

/-- Modelled from the spec: `make_bore_icon_key` of `app/bores.py` (not in
src).  The icon key is the comma-joined status+type composite; either code
missing means no icon.  The repository's tests pin
`make_bore_icon_key("ex", "ab") = "EX,AB"`. -/
def make_bore_icon_key (status type_code : String) : Option String :=
  if status.data.isEmpty ∨ type_code.data.isEmpty then none
  else some (upperS status ++ "," ++ upperS type_code)

/-- The canonical bore record assembled by `_normalize_bore_properties`. -/
structure BoreRecord where
  bore_number : String
  status : Option String
  status_label : Option String
  type : Option String
  type_label : Option String
  drilled_date : Option String
  report_url : Option String
  icon_key : Option String
deriving DecidableEq

/-- Embedding of `_normalize_bore_properties` (`app/main.py` lines 111-172).
A raw attribute mapping is modelled as a function from field name to optional
value.  Absence of a usable bore number yields `none` (the Python `None`). -/
def normalize_bore_properties (props : String → Option String) : Option BoreRecord :=
  match normalize_bore_number
      (pyOr [props "bore_number", props BORE_NUMBER_FIELD, props "rn", props "rn_char"]) with
  | none => none
  | some bore_number =>
    let status_code := clean_text
      (pyOr [props "status", props "status_code", props BORE_STATUS_CODE_FIELD,
             props "facility_status"])
    let status_label := clean_text
      (pyOr [props "status_label", props BORE_STATUS_LABEL_FIELD, props "statusLabel",
             props "facility_status_decode"])
    let type_code := clean_text
      (pyOr [props "type", props "type_code", props BORE_TYPE_CODE_FIELD,
             props "facility_type"])
    let type_label := clean_text
      (pyOr [props "type_label", props BORE_TYPE_LABEL_FIELD, props "typeLabel",
             props "facility_type_decode"])
    let drilled_date := normalize_bore_drill_date
      (pyOr [props "drilled_date", props BORE_DRILL_DATE_FIELD])
    let report_url := clean_text (pyOr [props "report_url", props BORE_REPORT_URL_FIELD])
    let icon_key :=
      match pyOr [props "icon_key"] with
      | some k => some k
      | none => make_bore_icon_key status_code type_code
    some {
      bore_number := bore_number
      status := or_none status_code
      status_label := optOr (or_none status_label) (or_none status_code)
      type := or_none type_code
      type_label := optOr (or_none type_label) (or_none type_code)
      drilled_date := drilled_date
      report_url := or_none report_url
      icon_key := icon_key }

/-! ## Bore placemark preparation (`app/main.py` lines 387-444) -/

/-- A raw bore feature as seen by `_prepare_bore_placemarks`: whether
`shp_shape` succeeds, emptiness and geometry type of the shape, the outcome of
the `intersects` test against the parcel (which may raise, in which case the
feature is kept), the attribute mapping, and the point coordinates. -/
structure RawBore where
  geomOk : Bool
  isEmpty : Bool
  geomType : String
  intersectsRaises : Bool
  intersectsParcel : Bool
  props : String → Option String
  x : Int
  y : Int

/-- A point placemark; the icon/style assignment of the source depends on
`get_bore_icon_by_key` (`app/bores.py`, not in src) and does not affect the
dedup key, so the placemark is modelled by its name and coordinates. -/
structure PointPlacemark where
  name : String
  lon : Int
  lat : Int
deriving DecidableEq

/-- The per-feature filter chain of `_prepare_bore_placemarks` ahead of the
seen-numbers check: broken geometry, empty or non-point geometry, and features
properly outside the parcel are skipped; a failing `intersects` test keeps the
feature; then the properties are normalized. -/
def surviveBore (parcelSome : Bool) (b : RawBore) : Option BoreRecord :=
  if ¬ b.geomOk then none
  else if b.isEmpty ∨ ¬ b.geomType = "Point" then none
  else if parcelSome ∧ ¬ b.intersectsRaises ∧ ¬ b.intersectsParcel then none
  else normalize_bore_properties b.props

/-- The placemark built from a surviving feature and its normalized record. -/
def mkBorePlacemark (b : RawBore) (r : BoreRecord) : PointPlacemark :=
  { name := r.bore_number, lon := b.x, lat := b.y }

/-- The loop of `_prepare_bore_placemarks` with its `seen_numbers` set. -/
def prepareBoresGo (parcelSome : Bool) (seen : List String) :
    List RawBore → List PointPlacemark
  | [] => []
  | b :: rest =>
    match surviveBore parcelSome b with
    | none => prepareBoresGo parcelSome seen rest
    | some r =>
      if r.bore_number.data.isEmpty ∨ seen.contains r.bore_number then
        prepareBoresGo parcelSome seen rest
      else
        mkBorePlacemark b r :: prepareBoresGo parcelSome (r.bore_number :: seen) rest

/-- Embedding of `_prepare_bore_placemarks` (`app/main.py` lines 387-444),
restricted to the placemark list (the icon-asset side table does not affect
the claimed dedup behaviour). -/
def prepare_bore_placemarks (parcelSome : Bool) (bores : List RawBore) : List PointPlacemark :=
  prepareBoresGo parcelSome [] bores

/-- The first feature of the list that survives the filter chain with the
given bore number, together with its normalized record. -/
def firstSurvivorWith (parcelSome : Bool) (n : String) :
    List RawBore → Option (RawBore × BoreRecord)
  | [] => none
  | b :: rest =>
    match surviveBore parcelSome b with
    | some r => if r.bore_number = n then some (b, r) else firstSurvivorWith parcelSome n rest
    | none => firstSurvivorWith parcelSome n rest

/-! ## Bulk vector bore deduplication (`app/main.py` lines 1513-1599) -/

/-- A raw bore feature as filtered in `vector_geojson_bulk`: only geometry
parse success and non-emptiness are checked there (no point-type or parcel
test). -/
structure RawBoreV where
  geomOk : Bool
  isEmpty : Bool
  props : String → Option String

/-- The per-feature filter of the bulk vector endpoint ahead of the
seen-numbers check. -/
def surviveBoreV (b : RawBoreV) : Option BoreRecord :=
  if ¬ b.geomOk then none
  else if b.isEmpty then none
  else normalize_bore_properties b.props

/-- The inner bore loop of `vector_geojson_bulk` for one identifier, emitting
(identifier, bore number) pairs and threading the shared `seen_bore_numbers`
set. -/
def bulkBoreInner (lp : String) (seen : List String) :
    List RawBoreV → List (String × String) × List String
  | [] => ([], seen)
  | b :: rest =>
    match surviveBoreV b with
    | none => bulkBoreInner lp seen rest
    | some r =>
      if r.bore_number.data.isEmpty ∨ seen.contains r.bore_number then bulkBoreInner lp seen rest
      else
        let p := bulkBoreInner lp (r.bore_number :: seen) rest
        ((lp, r.bore_number) :: p.1, p.2)

/-- The outer identifier loop of `vector_geojson_bulk`, with the single
`seen_bore_numbers` set shared across identifiers (`app/main.py` line 1536). -/
def bulkBoresGo (fetch : String → List RawBoreV) (seen : List String) :
    List String → List (String × String)
  | [] => []
  | lp :: rest =>
    let p := bulkBoreInner lp seen (fetch lp)
    p.1 ++ bulkBoresGo fetch p.2 rest

/-- The (identifier, bore number) pairs emitted into the bulk vector response,
in emission order. -/
def vector_bulk_bores (fetch : String → List RawBoreV) (lps : List String) :
    List (String × String) :=
  bulkBoresGo fetch [] lps

/-- Whether an identifier's bore fetch contains a feature surviving the
filters with the given bore number. -/
def lpHasBore (fetch : String → List RawBoreV) (n : String) (lp : String) : Bool :=
  (fetch lp).any (fun b =>
    match surviveBoreV b with
    | some r => r.bore_number == n
    | none => false)

/-- The first identifier in iteration order whose fetch yields the bore number. -/
def firstLpWith (fetch : String → List RawBoreV) (n : String) (lps : List String) :
    Option String :=
  lps.find? (lpHasBore fetch n)

/-! ## Clipping (`app/main.py` lines 194-216) -/

/-- The shapely operations used by `_clip_to_parcel_union`, abstracted: each
fallible operation returns `none` when the underlying call raises. -/
structure GeoOps (G : Type) where
  is_empty : G → Bool
  intersects : G → G → Option Bool
  intersection : G → G → Option G
  make_valid : G → Option G

/-- Embedding of `_clip_to_parcel_union` (`app/main.py` lines 194-216): empty
candidates yield nothing; an absent/empty union passes the candidate through;
a successful negative `intersects` test yields nothing (a raising test is
ignored); then `intersection` is tried as-is, with the candidate repaired,
with both repaired, and finally falls back to the original candidate; an empty
clip result yields nothing. -/
def clip_to_parcel_union {G : Type} (ops : GeoOps G) (geom : G) (parcel_union : Option G) :
    Option G :=
  if ops.is_empty geom then none
  else
    match parcel_union with
    | none => some geom
    | some pu =>
      if ops.is_empty pu then some geom
      else if ops.intersects pu geom = some false then none
      else
        let clipped :=
          match ops.intersection pu geom with
          | some c => c
          | none =>
            match (ops.make_valid geom).bind (fun g2 => ops.intersection pu g2) with
            | some c => c
            | none =>
              match (ops.make_valid pu).bind
                  (fun pu2 => (ops.make_valid geom).bind (fun g2 => ops.intersection pu2 g2)) with
              | some c => c
              | none => geom
        if ops.is_empty clipped then none else some clipped

/-! ## Simplification (`app/main.py` lines 792-809) -/

/-- A clipped shape tuple `(geom4326, code, name, area_ha)`. -/
structure ShapeT (G : Type) where
  geom : G
  code : String
  name : String
  area_ha : ℚ
deriving DecidableEq

/-- The geometry operations used by `_simplify`: `simplify` returns `none`
when the call raises (in which case the original geometry is kept). -/
structure SimpOps (G : Type) where
  simplify : G → Option G
  is_empty : G → Bool

/-- The per-shape step of `build_property_report_kmz._simplify`: simplify
(keeping the original on exception) and drop the shape when the result is
empty. -/
def simplifyShapeStep {G : Type} (ops : SimpOps G) (s : ShapeT G) : Option (ShapeT G) :=
  let g2 := (ops.simplify s.geom).getD s.geom
  if ops.is_empty g2 then none else some { s with geom := g2 }

/-- Embedding of `build_property_report_kmz._simplify` (`app/main.py` lines
792-809): each shape is simplified (exceptions keep the original geometry),
empty results are dropped, and when every shape has been dropped the whole
original collection is returned instead. -/
def simplifyShapesKmz {G : Type} (ops : SimpOps G) (data : List (ShapeT G)) : List (ShapeT G) :=
  let simplified := data.filterMap (simplifyShapeStep ops)
  if simplified.isEmpty then data else simplified

/-- Whether a shape's simplification (with the exception fallback) is empty. -/
def emptyAfterSimplify {G : Type} (ops : SimpOps G) (s : ShapeT G) : Bool :=
  ops.is_empty ((ops.simplify s.geom).getD s.geom)

/-! ## Report decision logic and the bulk merged export
(`app/main.py` lines 700-917 and 1811-1869) -/

/-- A prepared water layer as carried by `WaterLayerKMZ`: shapes, point
placemarks, and the clipped feature list of its feature collection. -/
structure WaterLayerD (G P : Type) where
  layer_id : Int
  layer_title : String
  shapes : List G
  points : List P
  fc_features : List G
deriving DecidableEq

/-- The per-parcel results assembled by `build_property_report_kmz` after
fetch, normalize, clip and simplify: clipped land types, vegetation and
easements, bore placemarks, and water layers. -/
structure ParcelReportData (G P : Type) where
  lotplan : String
  lt_clipped : List G
  veg_clipped : List G
  easement_clipped : List G
  bore_points : List P
  water_layers : List (WaterLayerD G P)
deriving DecidableEq

/-- The `has_water` test of `build_property_report_kmz` (lines 879-882): some
water layer has shapes, points, or clipped features. -/
def has_water {G P : Type} (d : ParcelReportData G P) : Bool :=
  d.water_layers.any (fun l => !l.shapes.isEmpty || !l.points.isEmpty || !l.fc_features.isEmpty)

/-- The survival test guarding the 404 in `build_property_report_kmz` (line
884): any clipped shape, bore point, or non-empty water bundle. -/
def report_has_features {G P : Type} (d : ParcelReportData G P) : Bool :=
  !d.lt_clipped.isEmpty || !d.veg_clipped.isEmpty || !d.easement_clipped.isEmpty ||
    !d.bore_points.isEmpty || has_water d

/-- The outcome of `build_property_report_kmz` (`app/main.py` lines 879-917)
as a function of the prepared per-parcel data: a 404 error when nothing
survived, otherwise the report (the KMZ serialization and temp-file write are
modelled separately and assumed to succeed). -/
def build_property_report {G P : Type} (d : ParcelReportData G P) :
    Except Nat (ParcelReportData G P) :=
  if report_has_features d then .ok d else .error 404

/-- The identifier loop of `_create_bulk_kmz` (`app/main.py` lines 1824-1866):
each identifier's report is built in turn, and an `HTTPException` raised by
`build_property_report_kmz` propagates, aborting the remaining identifiers. -/
def bulkKmzGroups {G P : Type} (fetch : String → ParcelReportData G P) :
    List String → Except Nat (List (String × ParcelReportData G P))
  | [] => .ok []
  | lp :: rest =>
    match build_property_report (fetch lp) with
    | .error e => .error e
    | .ok r =>
      match bulkKmzGroups fetch rest with
      | .error e => .error e
      | .ok gs => .ok ((r.lotplan, r) :: gs)

/-- Embedding of `_create_bulk_kmz` (`app/main.py` lines 1811-1869) down to
its top-level folder list: the per-identifier loop followed by the
`if not nested_groups` 404 check. -/
def create_bulk_kmz {G P : Type} (fetch : String → ParcelReportData G P)
    (items : List String) : Except Nat (List (String × ParcelReportData G P)) :=
  match bulkKmzGroups fetch items with
  | .error e => .error e
  | .ok groups => if groups.isEmpty then .error 404 else .ok groups

/-! ## Temporary-storage traces (`app/main.py` lines 1344-1372) -/

/-- Filesystem events performed by the export paths on their temp storage. -/
inductive FsEvent where
  | mkdir (p : String)
  | writeFile (p : String)
  | removeFile (p : String)
  | rmdirTry (p : String)
deriving DecidableEq

/-- Whether path `q` lies strictly inside directory `p`. -/
def insideDir (p q : String) : Bool :=
  ¬ q = p ∧ (p ++ "/").data.isPrefixOf q.data

/-- Apply one filesystem event to the set of live temp paths.  `rmdirTry`
models `os.rmdir`: it only removes an empty directory. -/
def applyFsEvent (live : List String) : FsEvent → List String
  | .mkdir p => live ++ [p]
  | .writeFile p => live ++ [p]
  | .removeFile p => live.filter (fun q => ¬ q = p)
  | .rmdirTry p => if live.any (insideDir p) then live else live.filter (fun q => ¬ q = p)

/-- The temp paths still existing after a trace of events. -/
def leftoverPaths (evs : List FsEvent) : List String := evs.foldl applyFsEvent []

/-- Embedding of the temp-storage behaviour of `export_geotiff` (`app/main.py`
lines 1344-1372): no storage is touched when clipping yields nothing (early
404); otherwise `tempfile.mkdtemp` creates the directory and
`make_geotiff_rgba` writes the GeoTIFF outside any `try`; the file and
directory are removed only in the `download` branch. -/
def export_geotiff_fs_events (lotplan : String) (clippedNonEmpty encodeOk download : Bool) :
    List FsEvent :=
  if ¬ clippedNonEmpty then []
  else
    let tmpdir := "/tmp/tiff_0"
    let out_path := tmpdir ++ "/" ++ lotplan ++ "_landtypes.tif"
    [FsEvent.mkdir tmpdir] ++
      (if ¬ encodeOk then [] else
        [FsEvent.writeFile out_path] ++
          (if download then [FsEvent.removeFile out_path, FsEvent.rmdirTry tmpdir] else []))

/-! ## Concrete fixtures used to evaluate the embeddings -/

/-- A raw bore attribute value that is missing or blank (Python-falsy after
strip): absent, empty, or whitespace-only. -/
def isBlankVal (o : Option String) : Bool :=
  match o with
  | none => true
  | some s => s.data.all pyIsSpace

/-- Concrete geometry operations on `Nat` geometries exercising every branch
of the clip fallback chain (`0` is the empty geometry). -/
def geoOpsW : GeoOps Nat where
  is_empty g := g = 0
  intersects p _ := if p = 6 then none else if p = 7 then some false else some true
  intersection p g :=
    if p = 1 ∧ g = 3 then some 4 else none
  make_valid g := if g = 2 then some 3 else if g = 8 then some 1 else none

/-- Concrete simplification operations on `Nat` geometries: shape `1`
simplifies to `10`, shape `2` simplifies to the empty geometry `0`. -/
def simpOpsC2 : SimpOps Nat where
  simplify g := if g = 1 then some 10 else if g = 2 then some 0 else some g
  is_empty g := g = 0

/-- A shape that survives simplification. -/
def shapeA : ShapeT Nat := ⟨1, "a", "Alpha", 1⟩

/-- A shape whose simplification comes back empty. -/
def shapeB : ShapeT Nat := ⟨2, "b", "Beta", 1⟩

/-- A two-shape category in which only `shapeA` survives simplification. -/
def dataC2 : List (ShapeT Nat) := [shapeA, shapeB]

/-- A parcel whose report has one land-type shape. -/
def parcelDataA : ParcelReportData Nat Nat := ⟨"A", [1], [], [], [], []⟩

/-- A per-identifier pipeline in which `"A"` yields one land-type shape and
every other identifier yields nothing. -/
def fetchC1 : String → ParcelReportData Nat Nat := fun lp =>
  if lp = "A" then parcelDataA else ⟨lp, [], [], [], [], []⟩

/-- A raw bore mapping whose only populated alias is whitespace-only. -/
def propsBlankW : String → Option String := fun k =>
  if k = "rn" then some "   " else none

/-- A raw bore mapping carrying a usable bore number. -/
def propsRnW : String → Option String := fun k =>
  if k = "rn" then some "rn 123" else none

/-- A raw bore feature that survives every per-feature filter of
`_prepare_bore_placemarks`, carrying the bore number `RN123` at `(1, 2)`. -/
def boreF1 : RawBore :=
  { geomOk := true, isEmpty := false, geomType := "Point", intersectsRaises := false,
    intersectsParcel := true, props := propsRnW, x := 1, y := 2 }

/-- A second surviving feature with the same bore number at `(3, 4)`. -/
def boreF2 : RawBore :=
  { geomOk := true, isEmpty := false, geomType := "Point", intersectsRaises := false,
    intersectsParcel := true, props := propsRnW, x := 3, y := 4 }

/-- A two-feature bore collection with duplicate bore numbers. -/
def boresW : List RawBore := [boreF1, boreF2]

/-- The record `propsRnW` normalizes to. -/
def rnRecordW : BoreRecord :=
  { bore_number := "RN123", status := none, status_label := none, type := none,
    type_label := none, drilled_date := none, report_url := none, icon_key := none }

/-- A surviving bulk-endpoint bore feature with bore number `RN123`. -/
def boreVW : RawBoreV := { geomOk := true, isEmpty := false, props := propsRnW }

/-- A bulk fetch in which every identifier's envelope returns the same single
bore `RN123`. -/
def fetchVW : String → List RawBoreV := fun _ => [boreVW]

/-! ## Theorems -/

/-- Unfolding of `icon_content_type_from_href` through its extension key. -/
theorem icon_content_type_eq (href : List Char) :
    icon_content_type_from_href href =
      (if ¬ (iconExtKey href).isEmpty then
        match alistFind (iconExtKey href) EXT_CONTENT_TYPES with
        | some mime => mime
        | none => "image/png".toList
      else "image/png".toList) := rfl

/-- The concrete content of the `_EXT_CONTENT_TYPES` dict: `jpeg` is absent. -/
theorem ext_content_types_eq :
    EXT_CONTENT_TYPES = [("png".toList, "image/png".toList), ("jpg".toList, "image/jpeg".toList)] := by
  decide

/-- C5 counterexample: the claim maps extension `jpeg` to `image/jpeg`, but the
code's extension dict only contains `png` and `jpg`, so a `.jpeg` href falls to
the `image/png` default. -/
theorem C5_counterexample :
    iconExtKey "icons/bore.jpeg".toList = "jpeg".toList ∧
    icon_content_type_from_href "icons/bore.jpeg".toList = "image/png".toList ∧
    ¬ icon_content_type_from_href "icons/bore.jpeg".toList = "image/jpeg".toList := by
  refine ⟨by decide, by decide, by decide⟩

/-- C5 (amended): the content type recovered from an icon href's extension is
`image/png` for extension `png`, `image/jpeg` for extension `jpg`, and
`image/png` for every other or missing extension (including `jpeg`). -/
theorem C5_icon_content_type_amended (href : List Char) :
    (iconExtKey href = "png".toList →
      icon_content_type_from_href href = "image/png".toList) ∧
    (iconExtKey href = "jpg".toList →
      icon_content_type_from_href href = "image/jpeg".toList) ∧
    (¬ iconExtKey href = "png".toList → ¬ iconExtKey href = "jpg".toList →
      icon_content_type_from_href href = "image/png".toList) := by
  refine ⟨?_, ?_, ?_⟩
  · intro h
    rw [icon_content_type_eq, h]
    decide
  · intro h
    rw [icon_content_type_eq, h]
    decide
  · intro h1 h2
    rw [icon_content_type_eq]
    by_cases he : (iconExtKey href).isEmpty
    · simp [he]
    · have hfind : alistFind (iconExtKey href) EXT_CONTENT_TYPES = none := by
        rw [ext_content_types_eq]
        simp only [alistFind]
        rw [if_neg (by simpa using h1), if_neg (by simpa using h2)]
      simp [he, hfind]

/-- C5 witness: the amended theorem evaluated on a `png`, a `jpg` and an
unknown-extension href. -/
theorem C5_icon_content_type_amended_witness :
    icon_content_type_from_href "icons/a.png".toList = "image/png".toList ∧
    icon_content_type_from_href "icons/b.jpg".toList = "image/jpeg".toList ∧
    icon_content_type_from_href "icons/c.gif".toList = "image/png".toList :=
  ⟨(C5_icon_content_type_amended "icons/a.png".toList).1 (by decide),
   (C5_icon_content_type_amended "icons/b.jpg".toList).2.1 (by decide),
   (C5_icon_content_type_amended "icons/c.gif".toList).2.2 (by decide) (by decide)⟩

/-- C6: with `download=false`, `export_geotiff` composes its GeoTIFF in a fresh
temp directory and returns without removing either the file or the directory —
the removal calls exist only in the `download` branch, so the temp storage
leaks, contradicting the spec's cleanup guarantee. -/
theorem C6_export_geotiff_leftover :
    leftoverPaths (export_geotiff_fs_events "13SP181800" true true false) =
      ["/tmp/tiff_0", "/tmp/tiff_0/13SP181800_landtypes.tif"] ∧
    ¬ leftoverPaths (export_geotiff_fs_events "13SP181800" true true false) = [] ∧
    leftoverPaths (export_geotiff_fs_events "13SP181800" true true true) = [] := by
  refine ⟨by decide, by decide, by decide⟩

/-- C9 counterexample: area parsing is not total — for the int `10^400`, the
`isinstance` branch's `float(value)` (main.py line 179, outside any `try`)
raises an uncaught `OverflowError` instead of returning a number or absence. -/
theorem C9_counterexample :
    safe_float (.pyint ((10 ^ 400 : ℕ) : ℤ)) = .error .overflowError := by
  have hb : PY_FLOAT_OVERFLOW_MIN ≤ (((10 ^ 400 : ℕ) : ℤ)).natAbs := by
    have h : PY_FLOAT_OVERFLOW_MIN ≤ 10 ^ 400 := by norm_num [PY_FLOAT_OVERFLOW_MIN]
    exact h
  simp only [safe_float]
  rw [if_pos hb]

/-- C9 (amended): `_safe_float` never raises for `None`, floats, strings or
arbitrary objects — a string whose comma-stripped form is numeric parses to
that number and a rejected one yields absence — and an int below the double
overflow bound converts successfully; but an int whose magnitude reaches
`2^1024 - 2^970` hits the un-guarded `float(value)` and raises an uncaught
`OverflowError`. -/
theorem C9_safe_float_amended :
    (∀ v : PyVal, (∀ n : ℤ, ¬ v = .pyint n) → ∃ r, safe_float v = .ok r) ∧
    (∀ n : ℤ, n.natAbs < PY_FLOAT_OVERFLOW_MIN →
      safe_float (.pyint n) = .ok (some (.finite (n : ℚ)))) ∧
    (∀ n : ℤ, PY_FLOAT_OVERFLOW_MIN ≤ n.natAbs →
      safe_float (.pyint n) = .error .overflowError) ∧
    (∀ (s : List Char) (val : PyFloatVal),
      pyFloatParse (removeCommas (pyStrip s)) = some val →
      safe_float (.pystr s) = .ok (some val)) ∧
    (∀ s : List Char,
      pyFloatParse (removeCommas (pyStrip s)) = none →
      safe_float (.pystr s) = .ok none) := by
  have hstr : ∀ s : List Char, ∃ r, safe_float_str (.pystr s) = .ok r := by
    intro s
    by_cases he : (pyStrip s).isEmpty
    · exact ⟨none, by simp [safe_float_str, pyStrOf, he]⟩
    · cases h : pyFloatParse (removeCommas (pyStrip s)) with
      | none => exact ⟨none, by simp [safe_float_str, pyStrOf, pyFloatCall, he, h]⟩
      | some q => exact ⟨some q, by simp [safe_float_str, pyStrOf, pyFloatCall, he, h]⟩
  refine ⟨?_, ?_, ?_, ?_, ?_⟩
  · intro v hv
    cases v with
    | pynone => exact ⟨none, rfl⟩
    | pyint n => exact absurd rfl (hv n)
    | pyfloat w => exact ⟨some w, rfl⟩
    | pystr s => exact hstr s
    | pyobj ok s =>
      cases ok with
      | false => exact ⟨none, by simp [safe_float, safe_float_str, pyStrOf]⟩
      | true =>
        by_cases he : (pyStrip s).isEmpty
        · exact ⟨none, by simp [safe_float, safe_float_str, pyStrOf, he]⟩
        · cases h : pyFloatParse (removeCommas (pyStrip s)) with
          | none =>
            exact ⟨none, by simp [safe_float, safe_float_str, pyStrOf, pyFloatCall, he, h]⟩
          | some q =>
            exact ⟨some q, by simp [safe_float, safe_float_str, pyStrOf, pyFloatCall, he, h]⟩
  · intro n hn
    simp only [safe_float]
    rw [if_neg (not_le.mpr hn)]
  · intro n hn
    simp only [safe_float]
    rw [if_pos hn]
  · intro s val h
    have he : ¬ (pyStrip s).isEmpty := by
      intro he
      have hnil : pyStrip s = [] := by simpa using he
      rw [hnil] at h
      rw [show pyFloatParse (removeCommas []) = none from by decide] at h
      cases h
    simp [safe_float, safe_float_str, pyStrOf, pyFloatCall, he, h]
  · intro s h
    by_cases he : (pyStrip s).isEmpty
    · simp [safe_float, safe_float_str, pyStrOf, he]
    · simp [safe_float, safe_float_str, pyStrOf, pyFloatCall, he, h]

/-- C9 witness: the amended theorem applied to the comma string `"1,234.5"`,
the non-numeric string `"12x"`, the small int `5`, the overflowing int
`10^400`, and an object whose `str()` raises. -/
theorem C9_safe_float_amended_witness :
    safe_float (.pystr "1,234.5".toList) = .ok (some (.finite (mkRat 2469 2))) ∧
    safe_float (.pystr "12x".toList) = .ok none ∧
    safe_float (.pyint 5) = .ok (some (.finite ((5 : ℤ) : ℚ))) ∧
    safe_float (.pyint ((10 ^ 400 : ℕ) : ℤ)) = .error .overflowError ∧
    ∃ r, safe_float (.pyobj false "x".toList) = .ok r :=
  ⟨C9_safe_float_amended.2.2.2.1 "1,234.5".toList (.finite (mkRat 2469 2)) (by decide),
   C9_safe_float_amended.2.2.2.2 "12x".toList (by decide),
   C9_safe_float_amended.2.1 5 (by norm_num [PY_FLOAT_OVERFLOW_MIN]),
   C9_safe_float_amended.2.2.1 ((10 ^ 400 : ℕ) : ℤ)
     (by
       have h : PY_FLOAT_OVERFLOW_MIN ≤ 10 ^ 400 := by norm_num [PY_FLOAT_OVERFLOW_MIN]
       exact h),
   C9_safe_float_amended.1 (.pyobj false "x".toList) (fun n h => nomatch h)⟩

/-- C4: the single-parcel report build signals 404 exactly when no clipped
land-type, vegetation or easement shape, no bore point, and no water layer
with any shape, point or feature survived; otherwise the report is returned. -/
theorem C4_report_not_found_iff_empty {G P : Type} (d : ParcelReportData G P) :
    (build_property_report d = .ok d ∨ build_property_report d = .error 404) ∧
    (build_property_report d = .error 404 ↔
      (d.lt_clipped = [] ∧ d.veg_clipped = [] ∧ d.easement_clipped = [] ∧
        d.bore_points = [] ∧
        ∀ w ∈ d.water_layers, w.shapes = [] ∧ w.points = [] ∧ w.fc_features = [])) := by
  constructor
  · by_cases h : report_has_features d <;> simp [build_property_report, h]
  · have hb : build_property_report d = .error 404 ↔ report_has_features d = false := by
      by_cases h : report_has_features d <;> simp [build_property_report, h]
    rw [hb]
    simp only [report_has_features, has_water, Bool.or_eq_false_iff, Bool.not_eq_false',
      List.any_eq_false, List.isEmpty_iff]
    constructor
    · rintro ⟨⟨⟨⟨h1, h2⟩, h3⟩, h4⟩, h5⟩
      refine ⟨h1, h2, h3, h4, ?_⟩
      intro w hw
      have h6 := h5 w hw
      rw [Bool.not_eq_true] at h6
      simp only [Bool.or_eq_false_iff, Bool.not_eq_false', List.isEmpty_iff] at h6
      exact ⟨h6.1.1, h6.1.2, h6.2⟩
    · rintro ⟨h1, h2, h3, h4, h5⟩
      refine ⟨⟨⟨⟨h1, h2⟩, h3⟩, h4⟩, ?_⟩
      intro w hw
      obtain ⟨hs, hp, hf⟩ := h5 w hw
      simp [hs, hp, hf]

/-- C4 witness: the theorem applied to an all-empty parcel and to a parcel
with one land-type shape. -/
theorem C4_report_not_found_witness :
    build_property_report
      (⟨"1TEST", [], [], [], [], []⟩ : ParcelReportData Nat Nat) = .error 404 ∧
    build_property_report
      (⟨"1TEST", [7], [], [], [], []⟩ : ParcelReportData Nat Nat) =
      .ok ⟨"1TEST", [7], [], [], [], []⟩ := by
  constructor
  · exact (C4_report_not_found_iff_empty _).2.mpr ⟨rfl, rfl, rfl, rfl, by simp⟩
  · rcases (C4_report_not_found_iff_empty
      (⟨"1TEST", [7], [], [], [], []⟩ : ParcelReportData Nat Nat)).1 with h | h
    · exact h
    · exact absurd ((C4_report_not_found_iff_empty _).2.mp h) (by simp)

/-- C3: the clip fallback chain of `_clip_to_parcel_union`: empty candidates
yield nothing; an absent or empty parcel union passes the candidate through
unclipped; a successful negative intersects test yields nothing; otherwise
intersection is attempted, retried with the repaired candidate, then with both
geometries repaired, and when all repairs fail the original unclipped candidate
is returned; an empty clip result yields nothing. -/
theorem C3_clip_fallback_chain {G : Type} (ops : GeoOps G) (geom : G) (pu : Option G) :
    (ops.is_empty geom = true → clip_to_parcel_union ops geom pu = none) ∧
    (ops.is_empty geom = false → pu = none → clip_to_parcel_union ops geom pu = some geom) ∧
    (∀ p, ops.is_empty geom = false → pu = some p → ops.is_empty p = true →
      clip_to_parcel_union ops geom pu = some geom) ∧
    (∀ p, ops.is_empty geom = false → pu = some p → ops.is_empty p = false →
      ops.intersects p geom = some false → clip_to_parcel_union ops geom pu = none) ∧
    (∀ p c, ops.is_empty geom = false → pu = some p → ops.is_empty p = false →
      ¬ ops.intersects p geom = some false →
      ops.intersection p geom = some c →
      clip_to_parcel_union ops geom pu = (if ops.is_empty c then none else some c)) ∧
    (∀ p c, ops.is_empty geom = false → pu = some p → ops.is_empty p = false →
      ¬ ops.intersects p geom = some false →
      ops.intersection p geom = none →
      (ops.make_valid geom).bind (fun g2 => ops.intersection p g2) = some c →
      clip_to_parcel_union ops geom pu = (if ops.is_empty c then none else some c)) ∧
    (∀ p c, ops.is_empty geom = false → pu = some p → ops.is_empty p = false →
      ¬ ops.intersects p geom = some false →
      ops.intersection p geom = none →
      (ops.make_valid geom).bind (fun g2 => ops.intersection p g2) = none →
      (ops.make_valid p).bind
        (fun pu2 => (ops.make_valid geom).bind (fun g2 => ops.intersection pu2 g2)) = some c →
      clip_to_parcel_union ops geom pu = (if ops.is_empty c then none else some c)) ∧
    (∀ p, ops.is_empty geom = false → pu = some p → ops.is_empty p = false →
      ¬ ops.intersects p geom = some false →
      ops.intersection p geom = none →
      (ops.make_valid geom).bind (fun g2 => ops.intersection p g2) = none →
      (ops.make_valid p).bind
        (fun pu2 => (ops.make_valid geom).bind (fun g2 => ops.intersection pu2 g2)) = none →
      clip_to_parcel_union ops geom pu = some geom) := by
  refine ⟨?_, ?_, ?_, ?_, ?_, ?_, ?_, ?_⟩
  · intro h
    simp [clip_to_parcel_union, h]
  · intro h hpu
    subst hpu
    simp [clip_to_parcel_union, h]
  · intro p h hpu hp
    subst hpu
    simp [clip_to_parcel_union, h, hp]
  · intro p h hpu hp hint
    subst hpu
    simp [clip_to_parcel_union, h, hp, hint]
  · intro p c h hpu hp hint ht1
    subst hpu
    simp [clip_to_parcel_union, h, hp, hint, ht1]
  · intro p c h hpu hp hint ht1 ht2
    subst hpu
    simp [clip_to_parcel_union, h, hp, hint, ht1, ht2]
  · intro p c h hpu hp hint ht1 ht2 ht3
    subst hpu
    simp [clip_to_parcel_union, h, hp, hint, ht1, ht2, ht3]
  · intro p h hpu hp hint ht1 ht2 ht3
    subst hpu
    simp [clip_to_parcel_union, h, hp, hint, ht1, ht2, ht3]

/-- C3 witness: every stage of the fallback chain evaluated on concrete
geometry operations over `Nat`. -/
theorem C3_clip_fallback_chain_witness :
    clip_to_parcel_union geoOpsW 0 (some 1) = none ∧
    clip_to_parcel_union geoOpsW 2 none = some 2 ∧
    clip_to_parcel_union geoOpsW 2 (some 0) = some 2 ∧
    clip_to_parcel_union geoOpsW 2 (some 7) = none ∧
    clip_to_parcel_union geoOpsW 3 (some 1) = some 4 ∧
    clip_to_parcel_union geoOpsW 2 (some 1) = some 4 ∧
    clip_to_parcel_union geoOpsW 2 (some 8) = some 4 ∧
    clip_to_parcel_union geoOpsW 5 (some 6) = some 5 := by
  refine ⟨(C3_clip_fallback_chain geoOpsW 0 (some 1)).1 (by decide),
    (C3_clip_fallback_chain geoOpsW 2 none).2.1 (by decide) rfl,
    (C3_clip_fallback_chain geoOpsW 2 (some 0)).2.2.1 0 (by decide) rfl (by decide),
    (C3_clip_fallback_chain geoOpsW 2 (some 7)).2.2.2.1 7 (by decide) rfl (by decide) (by decide),
    ?_, ?_, ?_,
    (C3_clip_fallback_chain geoOpsW 5 (some 6)).2.2.2.2.2.2.2 6 (by decide) rfl (by decide)
      (by decide) (by decide) (by decide) (by decide)⟩
  · have h := (C3_clip_fallback_chain geoOpsW 3 (some 1)).2.2.2.2.1 1 4 (by decide) rfl
      (by decide) (by decide) (by decide)
    simpa using h
  · have h := (C3_clip_fallback_chain geoOpsW 2 (some 1)).2.2.2.2.2.1 1 4 (by decide) rfl
      (by decide) (by decide) (by decide) (by decide)
    simpa using h
  · have h := (C3_clip_fallback_chain geoOpsW 2 (some 8)).2.2.2.2.2.2.1 8 4 (by decide) rfl
      (by decide) (by decide) (by decide) (by decide) (by decide)
    simpa using h

/-- A shape is dropped by the per-shape simplify step exactly when its
simplified geometry is empty. -/
theorem simplifyShapeStep_eq_none_iff {G : Type} (ops : SimpOps G) (s : ShapeT G) :
    simplifyShapeStep ops s = none ↔ emptyAfterSimplify ops s = true := by
  by_cases h : ops.is_empty ((ops.simplify s.geom).getD s.geom) <;>
    simp [simplifyShapeStep, emptyAfterSimplify, h]

/-- A surviving shape is kept with its simplified geometry. -/
theorem simplifyShapeStep_eq_some {G : Type} (ops : SimpOps G) (s : ShapeT G)
    (h : emptyAfterSimplify ops s = false) :
    simplifyShapeStep ops s =
      some ⟨(ops.simplify s.geom).getD s.geom, s.code, s.name, s.area_ha⟩ := by
  rw [emptyAfterSimplify] at h
  simp [simplifyShapeStep, h]

/-- C2 counterexample: in a category where one shape survives simplification,
a shape whose simplification comes back empty is dropped outright — it is not
retried unsimplified and appears in the output in no form. -/
theorem C2_counterexample :
    shapeB ∈ dataC2 ∧
    emptyAfterSimplify simpOpsC2 shapeB = true ∧
    ¬ shapeB ∈ simplifyShapesKmz simpOpsC2 dataC2 ∧
    simplifyShapesKmz simpOpsC2 dataC2 = [⟨10, "a", "Alpha", 1⟩] := by
  refine ⟨by decide, by decide, by decide, by decide⟩

/-- C2 (amended): with a positive tolerance every shape is simplified
(exceptions keep the original geometry); a shape whose simplification is empty
is dropped, unless every shape of the category simplifies to empty, in which
case the whole category is kept unsimplified; surviving shapes appear with
their simplified geometry. -/
theorem C2_simplify_amended {G : Type} (ops : SimpOps G) (data : List (ShapeT G)) :
    ((∀ s ∈ data, emptyAfterSimplify ops s = true) → simplifyShapesKmz ops data = data) ∧
    ((∃ s ∈ data, emptyAfterSimplify ops s = false) →
      simplifyShapesKmz ops data = data.filterMap (simplifyShapeStep ops)) ∧
    (∀ s ∈ data, emptyAfterSimplify ops s = false →
      (∃ t ∈ data, emptyAfterSimplify ops t = false) →
      (⟨(ops.simplify s.geom).getD s.geom, s.code, s.name, s.area_ha⟩ : ShapeT G) ∈
        simplifyShapesKmz ops data) := by
  have hmem : ∀ s ∈ data, emptyAfterSimplify ops s = false →
      (⟨(ops.simplify s.geom).getD s.geom, s.code, s.name, s.area_ha⟩ : ShapeT G) ∈
        data.filterMap (simplifyShapeStep ops) := by
    intro s hs h
    exact List.mem_filterMap.mpr ⟨s, hs, simplifyShapeStep_eq_some ops s h⟩
  have hresult : (∃ s ∈ data, emptyAfterSimplify ops s = false) →
      simplifyShapesKmz ops data = data.filterMap (simplifyShapeStep ops) := by
    rintro ⟨s, hs, h⟩
    have hne : data.filterMap (simplifyShapeStep ops) ≠ [] := by
      intro hnil
      have := hmem s hs h
      rw [hnil] at this
      cases this
    rw [simplifyShapesKmz, if_neg]
    simpa [List.isEmpty_iff] using hne
  refine ⟨?_, hresult, ?_⟩
  · intro h
    have hnil : data.filterMap (simplifyShapeStep ops) = [] := by
      rw [List.filterMap_eq_nil_iff]
      intro s hs
      exact (simplifyShapeStep_eq_none_iff ops s).mpr (h s hs)
    rw [simplifyShapesKmz, hnil]
    simp
  · intro s hs h hex
    rw [hresult hex]
    exact hmem s hs h

/-- C2 witness: the amended theorem evaluated on the concrete fixture — the
all-empty fallback keeps the whole category, and the mixed category keeps only
the survivor in simplified form. -/
theorem C2_simplify_amended_witness :
    simplifyShapesKmz simpOpsC2 [shapeB] = [shapeB] ∧
    simplifyShapesKmz simpOpsC2 dataC2 = dataC2.filterMap (simplifyShapeStep simpOpsC2) ∧
    (⟨10, "a", "Alpha", 1⟩ : ShapeT Nat) ∈ simplifyShapesKmz simpOpsC2 dataC2 := by
  refine ⟨(C2_simplify_amended simpOpsC2 [shapeB]).1 (by decide),
    (C2_simplify_amended simpOpsC2 dataC2).2.1 ⟨shapeA, by decide, by decide⟩, ?_⟩
  have h := (C2_simplify_amended simpOpsC2 dataC2).2.2 shapeA (by decide) (by decide)
    ⟨shapeA, by decide, by decide⟩
  simpa using h

/-- When every identifier's report has features, the bulk loop returns one
group per identifier, in input order. -/
theorem bulkKmzGroups_all_ok {G P : Type} (fetch : String → ParcelReportData G P) :
    ∀ items : List String, (∀ lp ∈ items, report_has_features (fetch lp) = true) →
      bulkKmzGroups fetch items =
        .ok (items.map (fun lp => ((fetch lp).lotplan, fetch lp))) := by
  intro items
  induction items with
  | nil => intro _; rfl
  | cons lp rest ih =>
    intro h
    have hlp : report_has_features (fetch lp) = true := h lp (by simp)
    have hrest := ih (fun x hx => h x (by simp [hx]))
    simp [bulkKmzGroups, build_property_report, hlp, hrest]

/-- One identifier with an empty report aborts the whole bulk loop with 404. -/
theorem bulkKmzGroups_err {G P : Type} (fetch : String → ParcelReportData G P) :
    ∀ items : List String, (∃ lp ∈ items, report_has_features (fetch lp) = false) →
      bulkKmzGroups fetch items = .error 404 := by
  intro items
  induction items with
  | nil => rintro ⟨lp, hmem, _⟩; cases hmem
  | cons lp rest ih =>
    rintro ⟨x, hmem, hx⟩
    by_cases hlp : report_has_features (fetch lp) = true
    · have hxrest : x ∈ rest := by
        rcases List.mem_cons.mp hmem with rfl | hr
        · rw [hlp] at hx; cases hx
        · exact hr
      have hrest := ih ⟨x, hxrest, hx⟩
      simp [bulkKmzGroups, build_property_report, hlp, hrest]
    · have hlp' : report_has_features (fetch lp) = false := by
        cases hh : report_has_features (fetch lp)
        · rfl
        · exact absurd hh hlp
      simp [bulkKmzGroups, build_property_report, hlp']

/-- C1 counterexample: in the bulk merged export over `["A", "B"]` where only
`"A"` yields features, the empty identifier `"B"` is not omitted — its 404
propagates and the whole bulk fails, instead of producing a one-folder
document. -/
theorem C1_counterexample :
    report_has_features (fetchC1 "A") = true ∧
    report_has_features (fetchC1 "B") = false ∧
    create_bulk_kmz fetchC1 ["A", "B"] = .error 404 := by
  refine ⟨by decide, by decide, by decide⟩

/-- C1 (amended): in the bulk merged export, an identifier that yields no
features raises not-found, which aborts the whole batch; the merged document
is produced exactly when every identifier yields features, and then contains
one parcel-named top-level folder per identifier, in input order. -/
theorem C1_bulk_merge_amended {G P : Type} (fetch : String → ParcelReportData G P)
    (items : List String) :
    (¬ items = [] → (∀ lp ∈ items, report_has_features (fetch lp) = true) →
      create_bulk_kmz fetch items =
        .ok (items.map (fun lp => ((fetch lp).lotplan, fetch lp)))) ∧
    ((∃ lp ∈ items, report_has_features (fetch lp) = false) →
      create_bulk_kmz fetch items = .error 404) := by
  constructor
  · intro hne hall
    have hg := bulkKmzGroups_all_ok fetch items hall
    have hmapne : ¬ (items.map (fun lp => ((fetch lp).lotplan, fetch lp))).isEmpty = true := by
      simpa [List.isEmpty_iff] using hne
    simp [create_bulk_kmz, hg, hmapne]
  · intro hex
    have hg := bulkKmzGroups_err fetch items hex
    simp [create_bulk_kmz, hg]

/-- C1 witness: the amended theorem evaluated on the two-identifier fixtures. -/
theorem C1_bulk_merge_amended_witness :
    create_bulk_kmz fetchC1 ["A"] = .ok [("A", parcelDataA)] ∧
    create_bulk_kmz fetchC1 ["B", "A"] = .error 404 := by
  constructor
  · have h := (C1_bulk_merge_amended fetchC1 ["A"]).1 (by decide) (by decide)
    simpa using h
  · exact (C1_bulk_merge_amended fetchC1 ["B", "A"]).2 ⟨"B", by decide, by decide⟩

/-- A successfully normalized bore number is never the empty string. -/
theorem normalize_bore_number_ne_nil (v : Option String) (bn : String)
    (h : normalize_bore_number v = some bn) : ¬ bn.data = [] := by
  cases v with
  | none => cases h
  | some s =>
    by_cases he : (upperS (removeWsS s)).data.isEmpty
    · rw [normalize_bore_number, if_pos he] at h
      cases h
    · rw [normalize_bore_number, if_neg he] at h
      cases h
      simpa [List.isEmpty_iff] using he

/-- A normalized bore record carries a non-empty bore number. -/
theorem normalize_bore_properties_number_ne_nil (props : String → Option String)
    (r : BoreRecord) (h : normalize_bore_properties props = some r) :
    ¬ r.bore_number.data = [] := by
  rw [normalize_bore_properties] at h
  cases hn : normalize_bore_number
      (pyOr [props "bore_number", props BORE_NUMBER_FIELD, props "rn", props "rn_char"]) with
  | none => rw [hn] at h; cases h
  | some bn =>
    rw [hn] at h
    cases h
    exact normalize_bore_number_ne_nil _ bn hn

/-- The Python `or` chain over all-blank raw values yields `none` or a
whitespace-only string. -/
theorem pyOr_of_blank (xs : List (Option String)) (h : ∀ o ∈ xs, isBlankVal o = true) :
    pyOr xs = none ∨ ∃ s : String, pyOr xs = some s ∧ s.data.all pyIsSpace = true := by
  induction xs with
  | nil => exact Or.inl rfl
  | cons o rest ih =>
    have hrest := ih (fun x hx => h x (by simp [hx]))
    cases o with
    | none => simpa [pyOr, List.findSome?] using hrest
    | some s =>
      by_cases hse : s.data.isEmpty
      · simpa [pyOr, List.findSome?, hse] using hrest
      · refine Or.inr ⟨s, ?_, ?_⟩
        · simp [pyOr, List.findSome?, hse]
        · have := h (some s) (by simp)
          simpa [isBlankVal] using this

/-- Normalizing a blank bore-number value yields absence. -/
theorem normalize_bore_number_of_blank (v : Option String) (h : isBlankVal v = true) :
    normalize_bore_number v = none := by
  cases v with
  | none => rfl
  | some s =>
    have hall : ∀ c ∈ s.data, pyIsSpace c = true := by
      simpa [isBlankVal, List.all_eq_true] using h
    have hfilter : s.data.filter (fun c => ¬ pyIsSpace c) = [] := by
      rw [List.filter_eq_nil_iff]
      intro c hc
      simp [hall c hc]
    have hempty : (upperS (removeWsS s)).data.isEmpty = true := by
      simp only [upperS, removeWsS, pyUpper]
      rw [List.isEmpty_iff, hfilter]
      rfl
    simp [normalize_bore_number, hempty]

/-- C7: a raw bore mapping in which every alias of the bore-number field is
missing or blank normalizes to absence, and a successfully normalized record
never carries an empty-string bore number. -/
theorem C7_bore_number_required (props : String → Option String) :
    (isBlankVal (props "bore_number") = true → isBlankVal (props BORE_NUMBER_FIELD) = true →
      isBlankVal (props "rn") = true → isBlankVal (props "rn_char") = true →
      normalize_bore_properties props = none) ∧
    (∀ r, normalize_bore_properties props = some r → ¬ r.bore_number = "") := by
  constructor
  · intro h1 h2 h3 h4
    have hblank : ∀ o ∈ [props "bore_number", props BORE_NUMBER_FIELD,
        props "rn", props "rn_char"], isBlankVal o = true := by
      intro o ho
      simp only [List.mem_cons, List.not_mem_nil, or_false] at ho
      rcases ho with rfl | rfl | rfl | rfl <;> assumption
    have hnorm : normalize_bore_number
        (pyOr [props "bore_number", props BORE_NUMBER_FIELD, props "rn", props "rn_char"]) =
          none := by
      rcases pyOr_of_blank _ hblank with hnone | ⟨s, hs, hws⟩
      · rw [hnone]
        rfl
      · rw [hs]
        exact normalize_bore_number_of_blank (some s) (by simpa [isBlankVal] using hws)
    rw [normalize_bore_properties, hnorm]
  · intro r h hr
    have := normalize_bore_properties_number_ne_nil props r h
    rw [hr] at this
    exact this rfl

/-- C7 witness: the theorem applied to an all-blank mapping and to a mapping
whose `rn` alias yields the record `RN123`. -/
theorem C7_bore_number_required_witness :
    normalize_bore_properties propsBlankW = none ∧
    ¬ (⟨"RN123", none, none, none, none, none, none, none⟩ : BoreRecord).bore_number = "" := by
  constructor
  · exact (C7_bore_number_required propsBlankW).1 (by decide) (by decide) (by decide) (by decide)
  · exact (C7_bore_number_required propsRnW).2 ⟨"RN123", none, none, none, none, none, none, none⟩
      (by decide)

/-- A feature surviving the placemark filter chain has a non-empty bore number. -/
theorem surviveBore_number_ne_nil (ps : Bool) (b : RawBore) (r : BoreRecord)
    (h : surviveBore ps b = some r) : ¬ r.bore_number.data = [] := by
  rw [surviveBore] at h
  split_ifs at h
  exact normalize_bore_properties_number_ne_nil b.props r h

/-- No placemark emitted by the bore loop carries a number already seen. -/
theorem prepareBoresGo_not_mem_seen (ps : Bool) :
    ∀ (bs : List RawBore) (seen : List String) (pm : PointPlacemark),
      pm ∈ prepareBoresGo ps seen bs → ¬ pm.name ∈ seen := by
  intro bs
  induction bs with
  | nil => intro seen pm h; cases h
  | cons b rest ih =>
    intro seen pm h
    rw [prepareBoresGo] at h
    cases hs : surviveBore ps b with
    | none =>
      simp only [hs] at h
      exact ih seen pm h
    | some r =>
      simp only [hs] at h
      by_cases hc : r.bore_number.data.isEmpty = true ∨ seen.contains r.bore_number = true
      · rw [if_pos hc] at h
        exact ih seen pm h
      · rw [if_neg hc] at h
        rcases List.mem_cons.mp h with rfl | hrec
        · intro hmem
          exact hc (Or.inr (by simpa [mkBorePlacemark] using hmem))
        · intro hmem
          exact ih (r.bore_number :: seen) pm hrec (by simp [hmem])

/-- The emitted bore numbers are pairwise distinct. -/
theorem prepareBoresGo_names_nodup (ps : Bool) :
    ∀ (bs : List RawBore) (seen : List String),
      ((prepareBoresGo ps seen bs).map PointPlacemark.name).Nodup := by
  intro bs
  induction bs with
  | nil => intro seen; simp [prepareBoresGo]
  | cons b rest ih =>
    intro seen
    rw [prepareBoresGo]
    cases hs : surviveBore ps b with
    | none =>
      simp only [hs]
      exact ih seen
    | some r =>
      simp only [hs]
      by_cases hc : r.bore_number.data.isEmpty = true ∨ seen.contains r.bore_number = true
      · rw [if_pos hc]
        exact ih seen
      · rw [if_neg hc]
        refine List.nodup_cons.mpr ⟨?_, ih (r.bore_number :: seen)⟩
        intro hmem
        obtain ⟨pm, hpm, hname⟩ := List.mem_map.mp hmem
        exact prepareBoresGo_not_mem_seen ps rest (r.bore_number :: seen) pm hpm
          (by simp [hname, mkBorePlacemark])

/-- Every surviving feature's bore number is either already seen or emitted. -/
theorem prepareBoresGo_complete (ps : Bool) :
    ∀ (bs : List RawBore) (seen : List String) (b : RawBore) (r : BoreRecord),
      b ∈ bs → surviveBore ps b = some r →
      r.bore_number ∈ seen ∨
        r.bore_number ∈ (prepareBoresGo ps seen bs).map PointPlacemark.name := by
  intro bs
  induction bs with
  | nil => intro seen b r hb; cases hb
  | cons b0 rest ih =>
    intro seen b r hb hr
    rw [prepareBoresGo]
    cases hs : surviveBore ps b0 with
    | none =>
      simp only [hs]
      rcases List.mem_cons.mp hb with rfl | hbr
      · rw [hs] at hr; cases hr
      · exact ih seen b r hbr hr
    | some r0 =>
      simp only [hs]
      by_cases hc : r0.bore_number.data.isEmpty = true ∨ seen.contains r0.bore_number = true
      · rw [if_pos hc]
        rcases List.mem_cons.mp hb with rfl | hbr
        · rw [hs] at hr
          cases hr
          rcases hc with hce | hcc
          · exact absurd (by simpa [List.isEmpty_iff] using hce)
              (surviveBore_number_ne_nil ps b r hs)
          · exact Or.inl (by simpa using hcc)
        · exact ih seen b r hbr hr
      · rw [if_neg hc]
        rcases List.mem_cons.mp hb with rfl | hbr
        · rw [hs] at hr
          cases hr
          exact Or.inr (by simp [mkBorePlacemark])
        · rcases ih (r0.bore_number :: seen) b r hbr hr with hseen | hout
          · rcases List.mem_cons.mp hseen with heq | hseen'
            · exact Or.inr (by simp [mkBorePlacemark, heq])
            · exact Or.inl hseen'
          · exact Or.inr (by simp [hout])

/-- The first survivor with a given number indeed survives with that number. -/
theorem firstSurvivorWith_spec (ps : Bool) (n : String) :
    ∀ (bs : List RawBore) (b : RawBore) (r : BoreRecord),
      firstSurvivorWith ps n bs = some (b, r) →
      surviveBore ps b = some r ∧ r.bore_number = n := by
  intro bs
  induction bs with
  | nil => intro b r h; cases h
  | cons b0 rest ih =>
    intro b r h
    rw [firstSurvivorWith] at h
    cases hs : surviveBore ps b0 with
    | none => simp only [hs] at h; exact ih b r h
    | some r0 =>
      simp only [hs] at h
      by_cases hn : r0.bore_number = n
      · rw [if_pos hn] at h
        cases h
        exact ⟨hs, hn⟩
      · rw [if_neg hn] at h
        exact ih b r h

/-- Every emitted placemark is built from the first feature of the input that
survives the filters with its bore number. -/
theorem prepareBoresGo_first_wins (ps : Bool) :
    ∀ (bs : List RawBore) (seen : List String) (pm : PointPlacemark),
      pm ∈ prepareBoresGo ps seen bs →
      ∃ b r, firstSurvivorWith ps pm.name bs = some (b, r) ∧ pm = mkBorePlacemark b r := by
  intro bs
  induction bs with
  | nil => intro seen pm h; cases h
  | cons b0 rest ih =>
    intro seen pm h
    rw [prepareBoresGo] at h
    cases hs : surviveBore ps b0 with
    | none =>
      simp only [hs] at h
      obtain ⟨b, r, hfirst, hpm⟩ := ih seen pm h
      refine ⟨b, r, ?_, hpm⟩
      rw [firstSurvivorWith]
      simp only [hs]
      exact hfirst
    | some r0 =>
      simp only [hs] at h
      by_cases hc : r0.bore_number.data.isEmpty = true ∨ seen.contains r0.bore_number = true
      · rw [if_pos hc] at h
        obtain ⟨b, r, hfirst, hpm⟩ := ih seen pm h
        have hne : ¬ r0.bore_number = pm.name := by
          intro heq
          have hpmseen := prepareBoresGo_not_mem_seen ps rest seen pm h
          rcases hc with hce | hcc
          · have hnm := ih seen pm h
            obtain ⟨b', r', hfirst', hpm'⟩ := hnm
            have : ¬ pm.name.data = [] := by
              rcases firstSurvivorWith_spec ps pm.name rest b' r' hfirst' with ⟨hsv, hnum⟩
              rw [← hnum]
              exact surviveBore_number_ne_nil ps b' r' hsv
            exact this (by rw [← heq]; simpa [List.isEmpty_iff] using hce)
          · exact hpmseen (by rw [← heq]; simpa using hcc)
        refine ⟨b, r, ?_, hpm⟩
        rw [firstSurvivorWith]
        simp only [hs]
        rw [if_neg hne]
        exact hfirst
      · rw [if_neg hc] at h
        rcases List.mem_cons.mp h with rfl | hrec
        · refine ⟨b0, r0, ?_, rfl⟩
          rw [firstSurvivorWith]
          simp only [hs]
          simp [mkBorePlacemark]
        · obtain ⟨b, r, hfirst, hpm⟩ := ih (r0.bore_number :: seen) pm hrec
          have hns := prepareBoresGo_not_mem_seen ps rest (r0.bore_number :: seen) pm hrec
          have hne : ¬ r0.bore_number = pm.name := fun heq => hns (by simp [← heq])
          refine ⟨b, r, ?_, hpm⟩
          rw [firstSurvivorWith]
          simp only [hs]
          rw [if_neg hne]
          exact hfirst

/-- C8: among the bore features of one parcel, the emitted bore numbers are
pairwise distinct; every feature that survives the per-feature filters has its
bore number emitted; and each emitted placemark is built from the first
surviving feature, in input order, with that bore number. -/
theorem C8_bore_placemark_dedup (parcelSome : Bool) (bores : List RawBore) :
    ((prepare_bore_placemarks parcelSome bores).map PointPlacemark.name).Nodup ∧
    (∀ b ∈ bores, ∀ r, surviveBore parcelSome b = some r →
      r.bore_number ∈ (prepare_bore_placemarks parcelSome bores).map PointPlacemark.name) ∧
    (∀ pm ∈ prepare_bore_placemarks parcelSome bores,
      ∃ b r, firstSurvivorWith parcelSome pm.name bores = some (b, r) ∧
        pm = mkBorePlacemark b r) := by
  refine ⟨prepareBoresGo_names_nodup parcelSome bores [], ?_, ?_⟩
  · intro b hb r hr
    rcases prepareBoresGo_complete parcelSome bores [] b r hb hr with hseen | hout
    · cases hseen
    · exact hout
  · intro pm hpm
    exact prepareBoresGo_first_wins parcelSome bores [] pm hpm

/-- C8 witness: two features sharing bore number `RN123` collapse to the one
placemark built from the first feature (coordinates `(1, 2)`, not `(3, 4)`). -/
theorem C8_bore_placemark_dedup_witness :
    prepare_bore_placemarks true boresW = [⟨"RN123", 1, 2⟩] ∧
    "RN123" ∈ (prepare_bore_placemarks true boresW).map PointPlacemark.name ∧
    ∃ b r, firstSurvivorWith true "RN123" boresW = some (b, r) ∧
      (⟨"RN123", 1, 2⟩ : PointPlacemark) = mkBorePlacemark b r := by
  refine ⟨by decide, ?_, ?_⟩
  · exact (C8_bore_placemark_dedup true boresW).2.1 boreF2
      (List.mem_cons_of_mem _ (List.mem_cons_self _ _)) rnRecordW (by decide)
  · exact (C8_bore_placemark_dedup true boresW).2.2 ⟨"RN123", 1, 2⟩ (by decide)

/-- A feature surviving the bulk-endpoint filter has a non-empty bore number. -/
theorem surviveBoreV_number_ne_nil (b : RawBoreV) (r : BoreRecord)
    (h : surviveBoreV b = some r) : ¬ r.bore_number.data = [] := by
  rw [surviveBoreV] at h
  split_ifs at h
  exact normalize_bore_properties_number_ne_nil b.props r h

/-- Each pair emitted by the inner bore loop belongs to its identifier, was
not yet seen, and comes from a surviving feature of that identifier's fetch. -/
theorem bulkBoreInner_mem (lp : String) :
    ∀ (bs : List RawBoreV) (seen : List String) (p : String × String),
      p ∈ (bulkBoreInner lp seen bs).1 →
      p.1 = lp ∧ ¬ p.2 ∈ seen ∧
        ∃ b ∈ bs, ∃ r, surviveBoreV b = some r ∧ r.bore_number = p.2 := by
  intro bs
  induction bs with
  | nil => intro seen p h; cases h
  | cons b rest ih =>
    intro seen p h
    rw [bulkBoreInner] at h
    cases hs : surviveBoreV b with
    | none =>
      simp only [hs] at h
      obtain ⟨h1, h2, b', hb', hr⟩ := ih seen p h
      exact ⟨h1, h2, b', List.mem_cons_of_mem _ hb', hr⟩
    | some r =>
      simp only [hs] at h
      by_cases hc : r.bore_number.data.isEmpty = true ∨ seen.contains r.bore_number = true
      · rw [if_pos hc] at h
        obtain ⟨h1, h2, b', hb', hr⟩ := ih seen p h
        exact ⟨h1, h2, b', List.mem_cons_of_mem _ hb', hr⟩
      · rw [if_neg hc] at h
        rcases List.mem_cons.mp h with rfl | hrec
        · refine ⟨rfl, ?_, b, List.mem_cons_self _ _, r, hs, rfl⟩
          intro hmem
          exact hc (Or.inr (by simpa using hmem))
        · obtain ⟨h1, h2, b', hb', hr⟩ := ih (r.bore_number :: seen) p hrec
          exact ⟨h1, fun hmem => h2 (by simp [hmem]), b', List.mem_cons_of_mem _ hb', hr⟩

/-- The inner loop's output `seen` set holds exactly the input `seen` plus the
emitted bore numbers. -/
theorem bulkBoreInner_seen (lp : String) :
    ∀ (bs : List RawBoreV) (seen : List String) (n : String),
      n ∈ (bulkBoreInner lp seen bs).2 ↔
        (n ∈ seen ∨ n ∈ (bulkBoreInner lp seen bs).1.map Prod.snd) := by
  intro bs
  induction bs with
  | nil => intro seen n; simp [bulkBoreInner]
  | cons b rest ih =>
    intro seen n
    rw [bulkBoreInner]
    cases hs : surviveBoreV b with
    | none =>
      simp only [hs]
      exact ih seen n
    | some r =>
      simp only [hs]
      by_cases hc : r.bore_number.data.isEmpty = true ∨ seen.contains r.bore_number = true
      · rw [if_pos hc]
        exact ih seen n
      · rw [if_neg hc]
        constructor
        · intro hmem
          rcases (ih (r.bore_number :: seen) n).mp hmem with hseen | hout
          · rcases List.mem_cons.mp hseen with heq | hseen'
            · exact Or.inr (by simp [heq])
            · exact Or.inl hseen'
          · exact Or.inr (by simp [hout])
        · intro hmem
          rcases hmem with hseen | hout
          · exact (ih (r.bore_number :: seen) n).mpr (Or.inl (by simp [hseen]))
          · simp only [List.map_cons, List.mem_cons] at hout
            rcases hout with heq | hout'
            · exact (ih (r.bore_number :: seen) n).mpr (Or.inl (by simp [heq]))
            · exact (ih (r.bore_number :: seen) n).mpr (Or.inr hout')

/-- The inner loop emits pairwise-distinct bore numbers. -/
theorem bulkBoreInner_nodup (lp : String) :
    ∀ (bs : List RawBoreV) (seen : List String),
      ((bulkBoreInner lp seen bs).1.map Prod.snd).Nodup := by
  intro bs
  induction bs with
  | nil => intro seen; simp [bulkBoreInner]
  | cons b rest ih =>
    intro seen
    rw [bulkBoreInner]
    cases hs : surviveBoreV b with
    | none =>
      simp only [hs]
      exact ih seen
    | some r =>
      simp only [hs]
      by_cases hc : r.bore_number.data.isEmpty = true ∨ seen.contains r.bore_number = true
      · rw [if_pos hc]
        exact ih seen
      · rw [if_neg hc]
        refine List.nodup_cons.mpr ⟨?_, ih (r.bore_number :: seen)⟩
        intro hmem
        obtain ⟨p, hp, hname⟩ := List.mem_map.mp hmem
        obtain ⟨_, hnotseen, _⟩ := bulkBoreInner_mem lp rest (r.bore_number :: seen) p hp
        exact hnotseen (by simp [hname])

/-- Every surviving feature's bore number ends up seen or emitted by the
inner loop. -/
theorem bulkBoreInner_complete (lp : String) :
    ∀ (bs : List RawBoreV) (seen : List String) (b : RawBoreV) (r : BoreRecord),
      b ∈ bs → surviveBoreV b = some r →
      r.bore_number ∈ seen ∨ r.bore_number ∈ (bulkBoreInner lp seen bs).1.map Prod.snd := by
  intro bs
  induction bs with
  | nil => intro seen b r hb; cases hb
  | cons b0 rest ih =>
    intro seen b r hb hr
    rw [bulkBoreInner]
    cases hs : surviveBoreV b0 with
    | none =>
      simp only [hs]
      rcases List.mem_cons.mp hb with rfl | hbr
      · rw [hs] at hr; cases hr
      · exact ih seen b r hbr hr
    | some r0 =>
      simp only [hs]
      by_cases hc : r0.bore_number.data.isEmpty = true ∨ seen.contains r0.bore_number = true
      · rw [if_pos hc]
        rcases List.mem_cons.mp hb with rfl | hbr
        · rw [hs] at hr
          cases hr
          rcases hc with hce | hcc
          · exact absurd (by simpa [List.isEmpty_iff] using hce)
              (surviveBoreV_number_ne_nil b r hs)
          · exact Or.inl (by simpa using hcc)
        · exact ih seen b r hbr hr
      · rw [if_neg hc]
        rcases List.mem_cons.mp hb with rfl | hbr
        · rw [hs] at hr
          cases hr
          exact Or.inr (by simp)
        · rcases ih (r0.bore_number :: seen) b r hbr hr with hseen | hout
          · rcases List.mem_cons.mp hseen with heq | hseen'
            · exact Or.inr (by simp [heq])
            · exact Or.inl hseen'
          · exact Or.inr (by simp [hout])

/-- Each pair emitted by the bulk loop was unseen on entry and is attributed
to the first identifier whose fetch yields its bore number. -/
theorem bulkBoresGo_mem (fetch : String → List RawBoreV) :
    ∀ (lps : List String) (seen : List String) (p : String × String),
      p ∈ bulkBoresGo fetch seen lps →
      ¬ p.2 ∈ seen ∧ firstLpWith fetch p.2 lps = some p.1 := by
  intro lps
  induction lps with
  | nil => intro seen p h; cases h
  | cons lp rest ih =>
    intro seen p h
    rw [bulkBoresGo] at h
    rcases List.mem_append.mp h with hin | hrec
    · obtain ⟨h1, h2, b, hb, r, hs, hnum⟩ := bulkBoreInner_mem lp (fetch lp) seen p hin
      refine ⟨h2, ?_⟩
      have hpred : lpHasBore fetch p.2 lp = true := by
        rw [lpHasBore, List.any_eq_true]
        exact ⟨b, hb, by simp [hs, hnum]⟩
      rw [firstLpWith, List.find?]
      rw [hpred, h1]
    · obtain ⟨h2, hfirst⟩ := ih (bulkBoreInner lp seen (fetch lp)).2 p hrec
      have hnotseen : ¬ p.2 ∈ seen := by
        intro hmem
        exact h2 ((bulkBoreInner_seen lp (fetch lp) seen p.2).mpr (Or.inl hmem))
      refine ⟨hnotseen, ?_⟩
      have hpred : lpHasBore fetch p.2 lp = false := by
        cases hp : lpHasBore fetch p.2 lp
        · rfl
        · exfalso
          rw [lpHasBore, List.any_eq_true] at hp
          obtain ⟨b, hb, hbp⟩ := hp
          cases hs : surviveBoreV b with
          | none => rw [hs] at hbp; cases hbp
          | some r =>
            rw [hs] at hbp
            have hnum : r.bore_number = p.2 := by simpa using hbp
            rcases bulkBoreInner_complete lp (fetch lp) seen b r hb hs with hseen | hout
            · exact hnotseen (hnum ▸ hseen)
            · exact h2 ((bulkBoreInner_seen lp (fetch lp) seen p.2).mpr
                (Or.inr (hnum ▸ hout)))
      rw [firstLpWith, List.find?]
      rw [hpred]
      exact hfirst

/-- The bulk loop emits each bore number at most once across all identifiers. -/
theorem bulkBoresGo_nodup (fetch : String → List RawBoreV) :
    ∀ (lps : List String) (seen : List String),
      ((bulkBoresGo fetch seen lps).map Prod.snd).Nodup := by
  intro lps
  induction lps with
  | nil => intro seen; simp [bulkBoresGo]
  | cons lp rest ih =>
    intro seen
    rw [bulkBoresGo]
    rw [List.map_append]
    refine List.Nodup.append (bulkBoreInner_nodup lp (fetch lp) seen)
      (ih (bulkBoreInner lp seen (fetch lp)).2) ?_
    intro n hn1 hn2
    obtain ⟨p, hp, hname⟩ := List.mem_map.mp hn2
    obtain ⟨h2, _⟩ := bulkBoresGo_mem fetch rest (bulkBoreInner lp seen (fetch lp)).2 p hp
    exact h2 ((bulkBoreInner_seen lp (fetch lp) seen p.2).mpr (Or.inr (hname ▸ hn1)))

/-- Every surviving bore of every requested identifier appears (seen or
emitted) after the bulk loop. -/
theorem bulkBoresGo_complete (fetch : String → List RawBoreV) :
    ∀ (lps : List String) (seen : List String) (lp : String),
      lp ∈ lps → ∀ b ∈ fetch lp, ∀ r, surviveBoreV b = some r →
      r.bore_number ∈ seen ∨
        r.bore_number ∈ (bulkBoresGo fetch seen lps).map Prod.snd := by
  intro lps
  induction lps with
  | nil => intro seen lp hlp; cases hlp
  | cons lp0 rest ih =>
    intro seen lp hlp b hb r hr
    rw [bulkBoresGo, List.map_append]
    rcases List.mem_cons.mp hlp with rfl | hlpr
    · rcases bulkBoreInner_complete lp (fetch lp) seen b r hb hr with hseen | hout
      · exact Or.inl hseen
      · exact Or.inr (List.mem_append.mpr (Or.inl hout))
    · rcases ih (bulkBoreInner lp0 seen (fetch lp0)).2 lp hlpr b hb r hr with hseen | hout
      · rcases (bulkBoreInner_seen lp0 (fetch lp0) seen r.bore_number).mp hseen with h1 | h2
        · exact Or.inl h1
        · exact Or.inr (List.mem_append.mpr (Or.inl h2))
      · exact Or.inr (List.mem_append.mpr (Or.inr hout))

/-- C10: in the bulk vector endpoint, bore deduplication is global across the
request — each bore number appears at most once in the whole response, every
surviving bore of any identifier is represented, and each emitted bore is
attributed to the first identifier in iteration order whose fetch returned it. -/
theorem C10_bulk_bore_global_dedup (fetch : String → List RawBoreV) (lps : List String) :
    ((vector_bulk_bores fetch lps).map Prod.snd).Nodup ∧
    (∀ p ∈ vector_bulk_bores fetch lps, firstLpWith fetch p.2 lps = some p.1) ∧
    (∀ lp ∈ lps, ∀ b ∈ fetch lp, ∀ r, surviveBoreV b = some r →
      r.bore_number ∈ (vector_bulk_bores fetch lps).map Prod.snd) := by
  refine ⟨bulkBoresGo_nodup fetch lps [], ?_, ?_⟩
  · intro p hp
    exact (bulkBoresGo_mem fetch lps [] p hp).2
  · intro lp hlp b hb r hr
    rcases bulkBoresGo_complete fetch lps [] lp hlp b hb r hr with hseen | hout
    · cases hseen
    · exact hout

/-- C10 witness: with every identifier's envelope returning the same bore
`RN123`, the request `["A", "B"]` emits it once, attributed to `"A"`. -/
theorem C10_bulk_bore_global_dedup_witness :
    vector_bulk_bores fetchVW ["A", "B"] = [("A", "RN123")] ∧
    firstLpWith fetchVW "RN123" ["A", "B"] = some "A" ∧
    "RN123" ∈ (vector_bulk_bores fetchVW ["A", "B"]).map Prod.snd := by
  refine ⟨by decide, ?_, ?_⟩
  · exact (C10_bulk_bore_global_dedup fetchVW ["A", "B"]).2.1 ("A", "RN123") (by decide)
  · exact (C10_bulk_bore_global_dedup fetchVW ["A", "B"]).2.2 "B" (by decide) boreVW
      (List.mem_singleton.mpr rfl) rnRecordW (by decide)

end LandType

section EvaluationChecks
open LandType
example : EXT_CONTENT_TYPES =
    [("png".toList, "image/png".toList), ("jpg".toList, "image/jpeg".toList)] := by decide
example : icon_content_type_from_href "icons/ex_ab.jpeg".toList = "image/png".toList := by decide
example : icon_content_type_from_href "icons/a.png".toList = "image/png".toList := by decide
example : icon_content_type_from_href "icons/a.JPG".toList = "image/jpeg".toList := by decide
example : icon_content_type_from_href "icons/noext".toList = "image/png".toList := by decide
example : icon_content_type_from_href "".toList = "image/png".toList := by decide
example : splitextExtension ".jpeg".toList = [] := by decide
example : splitextExtension "a/.jpeg".toList = [] := by decide
example : splitextExtension "a.b/c".toList = [] := by decide
example : splitextExtension "x.".toList = ".".toList := by decide
example : pyFloatParse "1234.5".toList = some (.finite (mkRat 2469 2)) := by decide
example : pyFloatParse "  -1.5e2 ".toList = some (.finite (mkRat (-150) 1)) := by decide
example : pyFloatParse "1_000".toList = some (.finite (mkRat 1000 1)) := by decide
example : pyFloatParse "1__0".toList = none := by decide
example : pyFloatParse "inf".toList = some .inf := by decide
example : pyFloatParse "abc".toList = none := by decide
example : pyFloatParse "".toList = none := by decide
example : pyFloatParse ".5".toList = some (.finite (mkRat 1 2)) := by decide
example : pyFloatParse "5.".toList = some (.finite (mkRat 5 1)) := by decide
example : safe_float (.pystr "1,234.5".toList) = .ok (some (.finite (mkRat 2469 2))) := by decide
example : safe_float (.pystr "  ".toList) = .ok none := by decide
example : safe_float (.pystr "x1".toList) = .ok none := by decide
end EvaluationChecks
